import Mathlib

/-
Verification development for the simple-http-server repository (Go).

The program is shallowly embedded over `List Char` ("Str"), which models Go
strings/byte slices (all inputs of interest are ASCII). Go string functions
(strings.Split, strings.TrimRight, strings.HasPrefix, ...) are translated to
executable Lean functions with the same semantics. Stateful behavior
(connection writes, temp-file creation/removal, body Close calls) is modelled
by explicit state passing:
 - `ConnState` records the bytes written to the client connection so far; a
   `Conn` carries the raw input bytes and a write schedule deciding which
   Write calls on the connection succeed (modelling io.Copy failures).
 - `World` records the per-request resource state the claims are about:
   whether the gzip middleware created its temp file, whether that file is
   still on disk, and whether the original response Body ever had its Close
   invoked.
The gzip encoder itself (compress/gzip) is an external library and is
abstracted as a function parameter `gz : Str -> Str`; the fallibility of the
temp-file / encoder / seek / stat operations is modelled by a `GzipEnv` of
success flags.

Go map[string]string is modelled by an association list with replace-on-set
semantics; iteration order of a Go map is unspecified, the model serializes
headers in insertion order (the byte-exact theorems below only concern
responses with an empty header map, where the serialization is exact).
-/

abbrev Str := List Char

deriving instance DecidableEq for Except

def str (s : String) : Str := s.toList

/-- strings.TrimRight: drop trailing characters belonging to the cutset. -/
def trimRightIn (cutset : Str) (s : Str) : Str :=
  ((s.reverse).dropWhile (fun c => cutset.contains c)).reverse

/-- strings.TrimLeft: drop leading characters belonging to the cutset. -/
def trimLeftIn (cutset : Str) (s : Str) : Str :=
  s.dropWhile (fun c => cutset.contains c)

/-- strings.TrimSpace (restricted to ASCII whitespace, which is all the
program ever sees on the accept-encoding header). -/
def trimSpace (s : Str) : Str :=
  ((s.dropWhile Char.isWhitespace).reverse.dropWhile Char.isWhitespace).reverse

/-- strings.ToLower (ASCII). -/
def toLowerStr (s : Str) : Str := s.map Char.toLower

/-- strings.HasPrefix p s (note the argument order: `isPre p s` means p is a
leading segment of s). -/
def isPre : Str → Str → Bool
  | [], _ => true
  | _ :: _, [] => false
  | p :: ps, c :: cs => p == c && isPre ps cs

/-- strings.Split with a one-character separator: splits around every
occurrence of the separator. Split("", sep) = [""], like Go. -/
def splitOnChar (sep : Char) : Str → List Str
  | [] => [[]]
  | c :: cs =>
    if c = sep then [] :: splitOnChar sep cs
    else
      match splitOnChar sep cs with
      | [] => [[c]]
      | p :: ps => (c :: p) :: ps

/-- strings.Split with the two-character separator ": " (the only multi-byte
separator the program uses), splitting around leftmost non-overlapping
occurrences. -/
def splitColonSpace : Str → List Str
  | [] => [[]]
  | ':' :: ' ' :: cs => [] :: splitColonSpace cs
  | c :: cs =>
    match splitColonSpace cs with
    | [] => [[c]]
    | p :: ps => (c :: p) :: ps

/-- fmt.Sprintf("%d", n) for the natural numbers the program prints. -/
def natToStr (n : Nat) : Str := (Nat.repr n).toList

/-- bufio.Reader.ReadString('\n'): returns the data up to and including the
first newline together with the unread remainder, or `none` when the input
ends before a newline is found (ReadString returns a non-nil error then,
which every caller in the program treats as fatal). -/
def readLine : Str → Option (Str × Str)
  | [] => none
  | c :: cs =>
    if c = '\n' then some ([c], cs)
    else
      match readLine cs with
      | none => none
      | some (l, r) => some (c :: l, r)

/-- Go map[string]string, as an association list. -/
abbrev HeadersL := List (Str × Str)

/-- Map assignment m[k] = v: replaces the value of an existing key in place,
appends a new entry otherwise. -/
def setH : HeadersL → Str → Str → HeadersL
  | [], k, v => [(k, v)]
  | (k', v') :: rest, k, v =>
    if k' = k then (k, v) :: rest else (k', v') :: setH rest k v

/-- Map lookup m[k] distinguishing presence. -/
def getH? : HeadersL → Str → Option Str
  | [], _ => none
  | (k', v) :: rest, k => if k' = k then some v else getH? rest k

/-- Map lookup m[k] with the zero value "" for a missing key, as in Go. -/
def getHD (hs : HeadersL) (k : Str) : Str := (getH? hs k).getD []

structure RequestLine where
  method : Str
  path : Str
  protocol : Str
deriving DecidableEq

structure Request where
  requestLine : RequestLine
  headers : HeadersL
  body : Str
deriving DecidableEq

def Request.path (r : Request) : Str := r.requestLine.path

structure ResponseHead where
  protocol : Str
  status : Nat
  reason : Str
  headers : HeadersL
deriving DecidableEq

/-- A response Body together with the semantics of its Close method:
`nop` is an io.NopCloser (Close does nothing), `file` is an *os.File
(Close releases the descriptor), `temp` is the middleware's tempFile
(Close removes the backing file from disk). -/
inductive Body where
  | nop (content : Str)
  | file (content : Str)
  | temp (content : Str)
deriving DecidableEq

def bodyContent : Body → Str
  | .nop c => c
  | .file c => c
  | .temp c => c

structure Response where
  head : ResponseHead
  body : Option Body
deriving DecidableEq

def okResponse : Response := ⟨⟨[], 200, str "OK", []⟩, none⟩
def createdResponse : Response := ⟨⟨[], 201, str "Created", []⟩, none⟩
def notFoundResponse : Response := ⟨⟨[], 404, str "Not Found", []⟩, none⟩
def errorResponse : Response := ⟨⟨[], 500, str "Internal Server Error", []⟩, none⟩

/-- ResponseHead.Bytes(): status line, then one "name: value\r\n" line per
header entry, then a blank line. The model emits headers in insertion order
(Go map iteration order is unspecified); byte-exact facts are only proved
for responses whose header map is empty. -/
def headBytes (h : ResponseHead) : Str :=
  let protocol := if h.protocol = [] then str "HTTP/1.1" else h.protocol
  protocol ++ str " " ++ natToStr h.status ++ str " " ++
    (if h.reason = [] then [] else h.reason) ++ str "\r\n" ++
    (h.headers.foldl (fun acc kv => acc ++ kv.1 ++ str ": " ++ kv.2 ++ str "\r\n") []) ++
    str "\r\n"

/-- parseRequestLine: strips the trailing CRLF, splits on single spaces and
requires exactly three tokens. -/
def parseRequestLine (line : Str) : Except String RequestLine :=
  let line := trimRightIn (str "\r\n") line
  match splitOnChar ' ' line with
  | [m, p, pr] => .ok ⟨m, p, pr⟩
  | _ => .error "invalid start line"

/-- One header line as handleRequest processes it: h := strings.Split(line, ": ");
key := strings.ToLower(h[0]); value := h[1]. When the line contains no ": ",
the split has a single element and the index expression h[1] is out of range:
Go panics. The panic is modelled by `none`. -/
def parseHeaderLine (line : Str) : Option (Str × Str) :=
  match splitColonSpace line with
  | k :: v :: _ => some (toLowerStr k, v)
  | _ => none

inductive ParseHeadersResult where
  | ok (hs : HeadersL) (rest : Str)
  | ioError
  | panicked
deriving DecidableEq

/-- The header-reading loop of handleRequest. `acc` holds the characters of
the current line read so far (reversed), modelling the buffered reader
consuming input character by character until '\n'; reaching the end of input
before a newline is the ReadString error case (`ioError`). An empty line
(after TrimRight of "\r\n") ends the loop, returning the headers and the
unread remainder of the input. A line without ": " makes the loop hit the
out-of-range index h[1]: `panicked`. -/
def parseHeadersLoop (input : Str) (hs : HeadersL) (acc : Str) : ParseHeadersResult :=
  match input with
  | [] => .ioError
  | c :: cs =>
    if c = '\n' then
      let line := trimRightIn (str "\r\n") (acc.reverse ++ ['\n'])
      if line = [] then .ok hs cs
      else
        match parseHeaderLine line with
        | none => .panicked
        | some (k, v) => parseHeadersLoop cs (setH hs k v) []
    else parseHeadersLoop cs hs (c :: acc)

/-- parsePathArg: trims leading slashes, splits the remainder on "/", errors
when there are fewer than two components, otherwise returns everything after
the first component and its separator. -/
def parsePathArg (requestPath : Str) : Except String Str :=
  let path := trimLeftIn (str "/") requestPath
  let pp := splitOnChar '/' path
  if pp.length < 2 then .error "does not contain a path argument"
  else .ok (path.drop ((pp.headD []).length + 1))

/-- One entry of Server.endPointHandlers. The handler type is a parameter so
that the registry facts hold for any handler representation. -/
structure EpHandler (H : Type) where
  pre : Str
  handler : H

/-- The in-place update scan at the top of RegisterHandler: replaces the
handler stored under an exactly-equal registered string, signalling with
`none` that no entry matched (in which case RegisterHandler appends). -/
def upsert {H : Type} : List (EpHandler H) → Str → H → Option (List (EpHandler H))
  | [], _, _ => none
  | e :: es, p, h =>
    if e.pre = p then some ({ e with handler := h } :: es)
    else
      match upsert es p h with
      | some es' => some (e :: es')
      | none => none

def insertByLen {H : Type} (e : EpHandler H) : List (EpHandler H) → List (EpHandler H)
  | [] => [e]
  | x :: xs => if e.pre.length ≤ x.pre.length then x :: insertByLen e xs else e :: x :: xs

/-- slices.SortFunc(endPointHandlers, by descending length of the registered
string). Go's SortFunc is an unstable sort; the model uses an insertion sort,
which agrees with any correct sort on entries of pairwise distinct lengths
(the only situation the claims depend on). -/
def sortByLenDesc {H : Type} : List (EpHandler H) → List (EpHandler H)
  | [] => []
  | e :: es => insertByLen e (sortByLenDesc es)

/-- Server.RegisterHandler: update in place when the same string is already
registered, otherwise append the new entry and re-sort by descending length. -/
def registerHandler {H : Type} (eps : List (EpHandler H)) (p : Str) (h : H) :
    List (EpHandler H) :=
  match upsert eps p h with
  | some eps' => eps'
  | none => sortByLenDesc (eps ++ [⟨p, h⟩])

/-- getHandler: first entry (in sorted order) whose registered string matches;
"/" is special-cased to match only the exact path "/". nil becomes `none`. -/
def getHandler {H : Type} : List (EpHandler H) → Str → Option H
  | [], _ => none
  | e :: es, path =>
    if e.pre = str "/" then
      if path = str "/" then some e.handler else getHandler es path
    else if isPre e.pre path then some e.handler
    else getHandler es path

/-- The matching condition getHandler applies to a single entry. -/
def matchesPre (p path : Str) : Bool :=
  if p = str "/" then path == str "/" else isPre p path

/-- The registry with the entries registered under "/" removed. -/
def removeRoot {H : Type} (eps : List (EpHandler H)) : List (EpHandler H) :=
  eps.filter (fun e => !(e.pre == str "/"))

/-- The per-request resource state the resource-discipline claims are about. -/
structure World where
  tempCreated : Bool
  tempOnDisk : Bool
  tempContent : Str
  origBodyClosed : Bool
deriving DecidableEq

def w0 : World := ⟨false, false, [], false⟩

/-- A handler: the Go type func(Request) (Response, error), with the resource
effects made explicit by threading a World. -/
def HandlerM := Request → World → (Except String Response) × World

def liftHandler (h : Request → Except String Response) : HandlerM :=
  fun req w => (h req, w)

/-- The middleware-application loop of handleRequest:
for i := range s.middlewares { handler = s.middlewares[i](handler) }. -/
def composeMiddlewares (mws : List (HandlerM → HandlerM)) (h : HandlerM) : HandlerM :=
  mws.foldl (fun acc m => m acc) h

/-- Server.RegisterMiddleware: append to the registration list. -/
def registerMiddleware (mws : List (HandlerM → HandlerM)) (m : HandlerM → HandlerM) :
    List (HandlerM → HandlerM) :=
  mws ++ [m]

/-- The nested application mw_n(mw_(n-1)(... mw_1(h) ...)) when the list is
given outermost first: the head of the list is the outermost wrapper. -/
def nestedWrap : List (HandlerM → HandlerM) → HandlerM → HandlerM
  | [], h => h
  | m :: ms, h => m (nestedWrap ms h)

/-- rootEndpoint. -/
def rootEndpoint (_ : Request) : Except String Response := .ok okResponse

/-- userAgentEndpoint. -/
def userAgentEndpoint (req : Request) : Except String Response :=
  let userAgent := getHD req.headers (str "user-agent")
  let headers := setH (setH (setH [] (str "Content-Type") (str "text/plain"))
      (str "Content-Length") (natToStr userAgent.length)) (str "Connection") (str "close")
  .ok ⟨{ okResponse.head with headers := headers }, some (.nop userAgent)⟩

/-- echoEndpoint. -/
def echoEndpoint (req : Request) : Except String Response :=
  match parsePathArg req.path with
  | .error e => .error e
  | .ok arg =>
    let headers := setH (setH (setH [] (str "Content-Type") (str "text/plain"))
        (str "Content-Length") (natToStr arg.length)) (str "Connection") (str "close")
    .ok ⟨{ okResponse.head with headers := headers }, some (.nop arg)⟩

/-- The file path getFilesEndpoint passes to os.Open / os.OpenFile: the
handler drops the error result of parsePathArg (on error fileName is Go's
zero value "") and joins the serving directory with the file name. path.Join
is Go standard library, abstracted as the parameter pathJoin. -/
def filesEndpointOpenPath (pathJoin : Str → Str → Str) (directory : Str)
    (req : Request) : Str :=
  let fileName :=
    match parsePathArg req.path with
    | .ok a => a
    | .error _ => []
  pathJoin directory fileName

/-- Success flags for the fallible operating-system and encoder steps inside
gzipMiddleware: os.CreateTemp, io.Copy into the gzip writer, gzip
Writer.Close, tempFile.Seek, os.Stat. -/
structure GzipEnv where
  createTempOk : Bool
  copyOk : Bool
  gwCloseOk : Bool
  seekOk : Bool
  statOk : Bool

def envAllOk : GzipEnv := ⟨true, true, true, true, true⟩

/-- The accept-encoding negotiation loop of gzipMiddleware: split on commas,
trim each token, look for "gzip". -/
def gzipAccepted (acceptEncoding : Str) : Bool :=
  (splitOnChar ',' acceptEncoding).any (fun o => trimSpace o == str "gzip")

/-- gzipMiddleware. `gz` abstracts the gzip encoding of a byte sequence.
Effects on the World follow the Go code exactly: the temp file is created
(and is on disk) once os.CreateTemp succeeds; no branch of the middleware
ever removes it or closes the original Body - removal happens only when the
*returned* Body's Close is invoked by the caller, and the original Body's
Close is never invoked. On a failed io.Copy the temp file keeps whatever
partial content it had (irrelevant to every claim). -/
def gzipMiddleware (gz : Str → Str) (env : GzipEnv) (handler : HandlerM) : HandlerM :=
  fun request w =>
    let acceptEncoding := getHD request.headers (str "accept-encoding")
    match handler request w with
    | (.error e, w) => (.error e, w)
    | (.ok response, w) =>
      match response.body with
      | none => (.ok response, w)
      | some origBody =>
        if !gzipAccepted acceptEncoding then (.ok response, w)
        else
          let head1 := { response.head with
            headers := setH response.head.headers (str "Content-Encoding") (str "gzip") }
          if !env.createTempOk then
            (.error "create temp file to cache compressed gzip response body", w)
          else
            let w := { w with tempCreated := true, tempOnDisk := true }
            if !env.copyOk then (.error "compress response body and write to temp", w)
            else
              let compressed := gz (bodyContent origBody)
              let w := { w with tempContent := compressed }
              if !env.gwCloseOk then (.error "compress response body and write to temp", w)
              else if !env.seekOk then (.error "rewind temp", w)
              else
                if !env.statOk then (.error "stat temp", w)
                else
                  let head2 := { head1 with
                    headers := setH head1.headers (str "Content-Length")
                      (natToStr compressed.length) }
                  (.ok ⟨head2, some (.temp compressed)⟩, w)

/-- A client connection: the request bytes available to read, and a schedule
deciding the fate of the k-th Write call on the connection (`none` = the
write succeeds in full, `some j` = the write fails after j bytes). -/
structure Conn where
  input : Str
  sched : Nat → Option Nat

structure ConnState where
  written : Str
  writeCount : Nat
deriving DecidableEq

def st0 : ConnState := ⟨[], 0⟩

/-- One io.Copy of a fully-buffered byte sequence to the connection. -/
def connWrite (conn : Conn) (st : ConnState) (data : Str) : Bool × ConnState :=
  match conn.sched st.writeCount with
  | none => (true, ⟨st.written ++ data, st.writeCount + 1⟩)
  | some j => (false, ⟨st.written ++ data.take j, st.writeCount + 1⟩)

/-- Outcome of handleRequest: a returned error, a normal return, or a Go
panic (which crashes the process; no code after the panicking statement
runs, only deferred Closes). -/
inductive HRes where
  | ok
  | err (msg : String)
  | panicked
deriving DecidableEq

/-- The deferred response.Body.Close() in handleRequest: closing the
middleware's tempFile removes the temp file from disk; closing a handler's
own body marks the original body as released. -/
def closeBody (b : Body) (w : World) : World :=
  match b with
  | .nop _ => { w with origBodyClosed := true }
  | .file _ => { w with origBodyClosed := true }
  | .temp _ => { w with tempOnDisk := false }

/-- Server.handleRequest: read and parse the request line, read the headers,
resolve the handler (404 head written directly when none matches), wrap it
in the registered middlewares, invoke it, then write the response head and
stream the body. The deferred Body.Close is registered only inside the
"response.Body != nil" block, after the head write has succeeded - exactly
as in the Go code. -/
def handleRequest (eps : List (EpHandler HandlerM)) (mws : List (HandlerM → HandlerM))
    (conn : Conn) : HRes × ConnState × World :=
  match readLine conn.input with
  | none => (.err "read from connection", st0, w0)
  | some (requestLineStr, rest) =>
    match parseRequestLine requestLineStr with
    | .error e => (.err e, st0, w0)
    | .ok requestLine =>
      match parseHeadersLoop rest [] [] with
      | .ioError => (.err "read request headers", st0, w0)
      | .panicked => (.panicked, st0, w0)
      | .ok headers bodyRest =>
        match getHandler eps requestLine.path with
        | none =>
          let (ok1, st) := connWrite conn st0 (headBytes notFoundResponse.head)
          if ok1 then (.ok, st, w0) else (.err "write 404 response", st, w0)
        | some handler =>
          let handler := composeMiddlewares mws handler
          match handler ⟨requestLine, headers, bodyRest⟩ w0 with
          | (.error e, w) => (.err e, st0, w)
          | (.ok response, w) =>
            let (ok1, st) := connWrite conn st0 (headBytes response.head)
            if !ok1 then (.err "write response head", st, w)
            else
              match response.body with
              | none => (.ok, st, w)
              | some b =>
                let (ok2, st') := connWrite conn st (bodyContent b)
                let w := closeBody b w
                if !ok2 then (.err "write response body", st', w) else (.ok, st', w)

/-- The per-connection worker spawned by Server.Start: run handleRequest and,
whenever it returns an error, attempt to write the 500 response head
(a failure of that write is only logged). A panic aborts the worker before
the error-handling code runs. The connection is closed in every case. -/
def handleConn (eps : List (EpHandler HandlerM)) (mws : List (HandlerM → HandlerM))
    (conn : Conn) : HRes × ConnState × World :=
  match handleRequest eps mws conn with
  | (.ok, st, w) => (.ok, st, w)
  | (.panicked, st, w) => (.panicked, st, w)
  | (.err m, st, w) =>
    let (_, st') := connWrite conn st (headBytes errorResponse.head)
    (.err m, st', w)

/-- The files endpoint performs filesystem side effects that are outside this
model; the registry needs some value under "/files/", and no theorem below
ever routes a request to it. -/
def unusedFilesHandler : HandlerM := fun _ w => (.error "files endpoint not modelled", w)

/-- The registry that main() builds (root, user-agent, echo, files). -/
def mainRegistry (files : HandlerM) : List (EpHandler HandlerM) :=
  registerHandler (registerHandler (registerHandler (registerHandler []
    (str "/") (liftHandler rootEndpoint))
    (str "/user-agent") (liftHandler userAgentEndpoint))
    (str "/echo/") (liftHandler echoEndpoint))
    (str "/files/") files

def echoGzipInput : Str := str "GET /echo/zzz HTTP/1.1\r\naccept-encoding: gzip\r\n\r\n"

def echoGzipRequest : Request :=
  ⟨⟨str "GET", str "/echo/zzz", str "HTTP/1.1"⟩, [(str "accept-encoding", str "gzip")], []⟩

def connEchoGzip : Conn := ⟨echoGzipInput, fun _ => none⟩

def gzId : Str → Str := fun s => s

def envCopyFail : GzipEnv := ⟨true, false, true, true, true⟩

/-- The inputs on which handleRequest's parse phase fails with an error
return (malformed request line, or input exhausted before the blank line
ending the headers). Header lines without ": " are NOT in this class: they
panic instead of returning an error. -/
def parseFailedInput (input : Str) : Bool :=
  match readLine input with
  | none => true
  | some (l, rest) =>
    match parseRequestLine l with
    | .error _ => true
    | .ok _ => decide (parseHeadersLoop rest [] [] = .ioError)

/-- A 200 response carrying a body, as a handler a user can register. -/
def bodyOkResponse : Response := ⟨okResponse.head, some (.nop (str "hello"))⟩

def constBodyHandler : HandlerM := fun _ w => (.ok bodyOkResponse, w)

def epsC9 : List (EpHandler HandlerM) := registerHandler [] (str "/") constBodyHandler

/-- Write schedule for the C9 scenario: the head write (call 0) succeeds,
the body write (call 1) fails having written nothing, later writes succeed. -/
def schedC9 : Nat → Option Nat := fun k => if k = 1 then some 0 else none

def connC9 : Conn := ⟨str "GET / HTTP/1.1\r\n\r\n", schedC9⟩

/-
Helper lemmas.
-/

theorem splitOnChar_ne_nil (sep : Char) (s : Str) : splitOnChar sep s ≠ [] := by
  induction s with
  | nil => simp [splitOnChar]
  | cons c cs ih =>
    by_cases h : c = sep
    · simp [splitOnChar, h]
    · simp only [splitOnChar, if_neg h]
      cases hsp : splitOnChar sep cs with
      | nil => simp
      | cons p ps => simp

theorem nestedWrap_append (xs ys : List (HandlerM → HandlerM)) (h : HandlerM) :
    nestedWrap (xs ++ ys) h = nestedWrap xs (nestedWrap ys h) := by
  induction xs with
  | nil => rfl
  | cons m ms ih => simp [nestedWrap, ih]

/-
Claim theorems.
-/

/-- C3: the claim states that a header line without a ": " separator makes
header parsing return a ParseError value. The code instead evaluates h[1] on
the one-element result of strings.Split, an out-of-range index: it panics.
On the concrete request fragment "XBadHeader\r\n\r\n" the header loop ends
in the panic outcome, not in an error value. -/
theorem C3_header_no_separator_panics :
    parseHeadersLoop (str "XBadHeader\r\n\r\n") [] [] = .panicked
    ∧ parseHeaderLine (str "XBadHeader") = none := by decide

/-- C1: the claim states that the temp file the gzip middleware creates is
deleted on every exit path, including a failure of the encoder step. On the
request GET /echo/zzz with accept-encoding: gzip, when io.Copy into the gzip
writer fails, the middleware returns the error without removing the temp
file, and no Body carrying the tempFile ever reaches the deferred Close in
handleRequest: after the whole connection handling completes the temp file
was created and is still on disk. -/
theorem C1_gzip_temp_leak :
    (handleConn (mainRegistry unusedFilesHandler)
      [gzipMiddleware gzId envCopyFail] connEchoGzip).2.2.tempCreated = true
    ∧ (handleConn (mainRegistry unusedFilesHandler)
      [gzipMiddleware gzId envCopyFail] connEchoGzip).2.2.tempOnDisk = true
    ∧ (handleConn (mainRegistry unusedFilesHandler)
      [gzipMiddleware gzId envCopyFail] connEchoGzip).1
        = .err "compress response body and write to temp" := by decide

/-- C7: the claim states that when the gzip middleware replaces the response
Body, the original Body's close operation is invoked on every exit path. The
middleware only reads the original Body (io.Copy) and never calls Close on
it, and handleRequest's deferred Close runs on the substituted Body only: on
the fully successful gzip-compressed echo request, handling completes with
the original Body never closed. -/
theorem C7_gzip_orig_body_never_closed :
    (handleConn (mainRegistry unusedFilesHandler)
      [gzipMiddleware gzId envAllOk] connEchoGzip).1 = .ok
    ∧ (handleConn (mainRegistry unusedFilesHandler)
      [gzipMiddleware gzId envAllOk] connEchoGzip).2.2.tempCreated = true
    ∧ (handleConn (mainRegistry unusedFilesHandler)
      [gzipMiddleware gzId envAllOk] connEchoGzip).2.2.origBodyClosed = false := by decide

/-- C2: for GET /echo/zzz with header "accept-encoding: gzip" the server
routes to the echo endpoint and the gzip middleware yields a 200 response
whose headers carry Content-Encoding: gzip, whose substituted Body holds the
gzip encoding of "zzz" (so decompressing it gives back exactly "zzz"), and
whose Content-Length header is the byte length of that compressed content,
not 3. The gzip codec is abstract: gz is the encoder, gunzip any decoder
inverting it on this input. -/
theorem C2_echo_gzip (gz gunzip : Str → Str) (files : HandlerM)
    (hround : gunzip (gz (str "zzz")) = str "zzz") :
    readLine echoGzipInput =
        some (str "GET /echo/zzz HTTP/1.1\r\n", str "accept-encoding: gzip\r\n\r\n")
    ∧ parseRequestLine (str "GET /echo/zzz HTTP/1.1\r\n") = .ok echoGzipRequest.requestLine
    ∧ parseHeadersLoop (str "accept-encoding: gzip\r\n\r\n") [] [] =
        .ok echoGzipRequest.headers []
    ∧ getHandler (mainRegistry files) (str "/echo/zzz") = some (liftHandler echoEndpoint)
    ∧ ∃ resp w,
        composeMiddlewares [gzipMiddleware gz envAllOk] (liftHandler echoEndpoint)
            echoGzipRequest w0 = (.ok resp, w)
        ∧ resp.head.status = 200
        ∧ getH? resp.head.headers (str "Content-Encoding") = some (str "gzip")
        ∧ ∃ c, resp.body = some (.temp c)
            ∧ gunzip c = str "zzz"
            ∧ getH? resp.head.headers (str "Content-Length") = some (natToStr c.length) := by
  refine ⟨by decide, by decide, by decide, rfl, ?_⟩
  exact ⟨_, _, rfl, rfl, rfl, gz (str "zzz"), rfl, hround, rfl⟩

/-- Witness for C2: instantiating the abstract codec with the identity
function, whose decoder is itself. -/
theorem C2_echo_gzip_witness :
    gzId (gzId (str "zzz")) = str "zzz"
    ∧ (∃ resp w,
        composeMiddlewares [gzipMiddleware gzId envAllOk] (liftHandler echoEndpoint)
            echoGzipRequest w0 = (.ok resp, w)
        ∧ resp.head.status = 200
        ∧ getH? resp.head.headers (str "Content-Encoding") = some (str "gzip")
        ∧ ∃ c, resp.body = some (.temp c)
            ∧ gzId c = str "zzz"
            ∧ getH? resp.head.headers (str "Content-Length") = some (natToStr c.length)) :=
  ⟨rfl, (C2_echo_gzip gzId gzId unusedFilesHandler rfl).2.2.2.2⟩

/-- C6: the middleware-application loop of handleRequest composes the
registered middlewares so that the one registered last is the outermost
wrapper: folding the registration list over the base handler equals the
nested application mw_n(mw_(n-1)(... mw_1(h) ...)), i.e. nestedWrap of the
reversed registration list. -/
theorem C6_middleware_order (mws : List (HandlerM → HandlerM)) (h : HandlerM) :
    composeMiddlewares mws h = nestedWrap mws.reverse h := by
  induction mws generalizing h with
  | nil => rfl
  | cons m ms ih =>
    have hstep : composeMiddlewares (m :: ms) h = composeMiddlewares ms (m h) := rfl
    rw [hstep, ih, List.reverse_cons, nestedWrap_append]
    rfl

/-- C10: on every request path with literal leading segment "/files/",
parsePathArg succeeds and returns exactly the remainder of the path after
"/files/", so the error result the files handler silently drops is
unreachable for routed paths; consequently the path handed to os.Open is the
join of the serving directory with that remainder - for the path "/files/"
itself, the join of the directory with the empty name. -/
theorem C10_files_path_arg (pathJoin : Str → Str → Str) (directory rest : Str) :
    parsePathArg (str "/files/" ++ rest) = .ok rest
    ∧ filesEndpointOpenPath pathJoin directory
        ⟨⟨str "GET", str "/files/" ++ rest, str "HTTP/1.1"⟩, [], []⟩
      = pathJoin directory rest := by
  have hne := splitOnChar_ne_nil '/' rest
  have hparse : parsePathArg (str "/files/" ++ rest) = .ok rest := by
    show (if (str "files" :: splitOnChar '/' rest).length < 2 then
            (.error "does not contain a path argument" : Except String Str)
          else .ok (('f' :: 'i' :: 'l' :: 'e' :: 's' :: '/' :: rest).drop
            (((str "files" :: splitOnChar '/' rest).headD []).length + 1)))
        = .ok rest
    rw [if_neg]
    · rfl
    · cases h : splitOnChar '/' rest with
      | nil => exact absurd h hne
      | cons a t => simp [h]
  refine ⟨hparse, ?_⟩
  simp only [filesEndpointOpenPath, Request.path, hparse]

/-- C4: for registered strings P1 and P2 with P1 a strict leading segment of
P2 and both matching a request path, resolution over the registry built by
registering both - in either order - selects the handler registered under
P2, the longer one. -/
theorem C4_longer_wins {H : Type} (p1 p2 path : Str) (h1 h2 : H)
    (hpre : List.IsPrefix p1 p2) (hne : p1 ≠ p2)
    (hm1 : matchesPre p1 path = true) (hm2 : matchesPre p2 path = true) :
    getHandler (registerHandler (registerHandler [] p1 h1) p2 h2) path = some h2
    ∧ getHandler (registerHandler (registerHandler [] p2 h2) p1 h1) path = some h2 := by
  have hlt : p1.length < p2.length := by
    rcases Nat.lt_or_ge p1.length p2.length with h | h
    · exact h
    · exact absurd (List.IsPrefix.eq_of_length hpre (Nat.le_antisymm hpre.length_le h)) hne
  have hreg1 : registerHandler (registerHandler [] p1 h1) p2 h2
      = [⟨p2, h2⟩, ⟨p1, h1⟩] := by
    simp [registerHandler, upsert, sortByLenDesc, insertByLen, hne, Nat.le_of_lt hlt]
  have hreg2 : registerHandler (registerHandler [] p2 h2) p1 h1
      = [⟨p2, h2⟩, ⟨p1, h1⟩] := by
    simp [registerHandler, upsert, sortByLenDesc, insertByLen, Ne.symm hne,
      Nat.not_le_of_lt hlt]
  have hsel : getHandler [(⟨p2, h2⟩ : EpHandler H), ⟨p1, h1⟩] path = some h2 := by
    by_cases hp2 : p2 = str "/"
    · have hpath : path = str "/" := by
        have := hm2
        simp [matchesPre, hp2] at this
        exact this
      simp [getHandler, hp2, hpath]
    · have hm : isPre p2 path = true := by
        have := hm2
        simpa [matchesPre, hp2] using this
      simp [getHandler, hp2, hm]
  exact ⟨hreg1 ▸ hsel, hreg2 ▸ hsel⟩

/-- Witness for C4: "/e" is a strict leading segment of "/ec", both match
the path "/ecx", and resolution picks the handler registered under "/ec"
for either registration order. -/
theorem C4_longer_wins_witness :
    (List.IsPrefix (str "/e") (str "/ec") ∧ str "/e" ≠ str "/ec"
      ∧ matchesPre (str "/e") (str "/ecx") = true
      ∧ matchesPre (str "/ec") (str "/ecx") = true)
    ∧ getHandler (registerHandler (registerHandler [] (str "/e") (0 : Nat))
        (str "/ec") 1) (str "/ecx") = some 1
    ∧ getHandler (registerHandler (registerHandler [] (str "/ec") (1 : Nat))
        (str "/e") 0) (str "/ecx") = some 1 :=
  ⟨⟨by decide, by decide, by decide, by decide⟩,
    C4_longer_wins (str "/e") (str "/ec") (str "/ecx") 0 1
      (by decide) (by decide) (by decide) (by decide)⟩

theorem getHandler_removeRoot {H : Type} (eps : List (EpHandler H)) (path : Str)
    (hpath : path ≠ str "/") :
    getHandler eps path = getHandler (removeRoot eps) path := by
  induction eps with
  | nil => rfl
  | cons e es ih =>
    by_cases he : e.pre = str "/"
    · simp [getHandler, he, hpath, removeRoot, List.filter_cons, ih]
    · by_cases hm : isPre e.pre path <;>
        simp [getHandler, he, hm, removeRoot, List.filter_cons, ih]

theorem getHandler_none_of_no_match {H : Type} (eps : List (EpHandler H)) (path : Str)
    (hpath : path ≠ str "/")
    (hall : ∀ e ∈ eps, e.pre = str "/" ∨ matchesPre e.pre path = false) :
    getHandler eps path = none := by
  induction eps with
  | nil => rfl
  | cons e es ih =>
    have htail : ∀ x ∈ es, x.pre = str "/" ∨ matchesPre x.pre path = false :=
      fun x hx => hall x (List.mem_cons_of_mem _ hx)
    rcases hall e (List.mem_cons_self _ _) with he | hm
    · simp [getHandler, he, hpath, ih htail]
    · by_cases he2 : e.pre = str "/"
      · simp [getHandler, he2, hpath, ih htail]
      · have hm2 : isPre e.pre path = false := by simpa [matchesPre, he2] using hm
        simp [getHandler, he2, hm2, ih htail]

/-- C5: for any registry and any path other than "/", resolution behaves as
if the entries registered under "/" were absent (so the root handler is
never returned for such a path); when additionally no other registered
string matches, resolution yields none; and in that case the dispatcher
writes the 404 response head to the connection. -/
theorem C5_root_only_exact (eps : List (EpHandler HandlerM)) (path : Str)
    (hpath : path ≠ str "/") :
    getHandler eps path = getHandler (removeRoot eps) path
    ∧ ((∀ e ∈ eps, e.pre = str "/" ∨ matchesPre e.pre path = false) →
        getHandler eps path = none)
    ∧ (∀ (mws : List (HandlerM → HandlerM)) (conn : Conn) (l r1 : Str)
        (rl : RequestLine) (hs : HeadersL) (r2 : Str),
        readLine conn.input = some (l, r1) →
        parseRequestLine l = .ok rl →
        rl.path = path →
        parseHeadersLoop r1 [] [] = .ok hs r2 →
        getHandler eps path = none →
        conn.sched 0 = none →
        handleRequest eps mws conn = (.ok, ⟨headBytes notFoundResponse.head, 1⟩, w0)) := by
  refine ⟨getHandler_removeRoot eps path hpath,
    getHandler_none_of_no_match eps path hpath, ?_⟩
  intro mws conn l r1 rl hs r2 hrd hpl hrlp hhl hnone hsched
  simp only [handleRequest, hrd, hpl, hhl, hrlp, hnone]
  simp [connWrite, st0, hsched]

/-- Witness for C5: a registry holding only the root handler, and the path
"/x": resolution ignores the root entry, yields none, and the dispatcher
answers the concrete request GET /x with the 404 head. -/
theorem C5_root_only_exact_witness :
    (str "/x" ≠ str "/")
    ∧ getHandler [(⟨str "/", liftHandler rootEndpoint⟩ : EpHandler HandlerM)] (str "/x")
        = getHandler (removeRoot [⟨str "/", liftHandler rootEndpoint⟩]) (str "/x")
    ∧ getHandler [(⟨str "/", liftHandler rootEndpoint⟩ : EpHandler HandlerM)] (str "/x")
        = none
    ∧ handleRequest [⟨str "/", liftHandler rootEndpoint⟩] []
        ⟨str "GET /x HTTP/1.1\r\n\r\n", fun _ => none⟩
        = (.ok, ⟨headBytes notFoundResponse.head, 1⟩, w0) := by
  have h := C5_root_only_exact [⟨str "/", liftHandler rootEndpoint⟩] (str "/x") (by decide)
  exact ⟨by decide, h.1, h.2.1 (by decide),
    h.2.2 [] ⟨str "GET /x HTTP/1.1\r\n\r\n", fun _ => none⟩
      (str "GET /x HTTP/1.1\r\n") (str "\r\n") ⟨str "GET", str "/x", str "HTTP/1.1"⟩ [] []
      (by decide) (by decide) rfl (by decide) (h.2.1 (by decide)) rfl⟩

/-- Counterexample to C8: the claim states that after a ParseError the
server sends no response bytes at all and in particular no 500 response. On
the connection whose request line is the single token "GARBAGE" (a
ParseError) and which accepts writes, the bytes on the wire after handling
are exactly the 500 response head - which is nonempty. -/
theorem C8_counterexample :
    (handleConn [] [] ⟨str "GARBAGE\r\n", fun _ => none⟩).2.1.written
      = headBytes errorResponse.head
    ∧ headBytes errorResponse.head ≠ [] := by decide

/-- C8 as amended: on a ParseError (malformed request line, or input
exhausted before the headers' terminating blank line) the server has written
nothing when handleRequest returns, and the connection worker then attempts
a best-effort 500: with a connection accepting the write, the bytes sent are
exactly the 500 response head, and the connection is then closed. -/
theorem C8_amended (eps : List (EpHandler HandlerM)) (mws : List (HandlerM → HandlerM))
    (conn : Conn) (hp : parseFailedInput conn.input = true)
    (hsched : conn.sched 0 = none) :
    ∃ m, handleConn eps mws conn = (.err m, ⟨headBytes errorResponse.head, 1⟩, w0) := by
  unfold parseFailedInput at hp
  cases hrd : readLine conn.input with
  | none =>
    refine ⟨"read from connection", ?_⟩
    simp only [handleConn, handleRequest, hrd]
    simp [connWrite, st0, hsched]
  | some pr =>
    obtain ⟨l, rest⟩ := pr
    simp only [hrd] at hp
    cases hpl : parseRequestLine l with
    | error e =>
      refine ⟨e, ?_⟩
      simp only [handleConn, handleRequest, hrd, hpl]
      simp [connWrite, st0, hsched]
    | ok rl =>
      simp only [hpl] at hp
      have hio : parseHeadersLoop rest [] [] = .ioError := of_decide_eq_true hp
      refine ⟨"read request headers", ?_⟩
      simp only [handleConn, handleRequest, hrd, hpl, hio]
      simp [connWrite, st0, hsched]

/-- Witness for C8 as amended, at the concrete malformed request "GARBAGE". -/
theorem C8_amended_witness :
    parseFailedInput (str "GARBAGE\r\n") = true
    ∧ ∃ m, handleConn [] [] ⟨str "GARBAGE\r\n", fun _ => none⟩
        = (.err m, ⟨headBytes errorResponse.head, 1⟩, w0) :=
  ⟨by decide, C8_amended [] [] ⟨str "GARBAGE\r\n", fun _ => none⟩ (by decide) rfl⟩

/-- Counterexample to C9: the claim states the server writes a 500 only when
nothing has been written yet, and never after a mid-response write failure.
On a GET / request served by a handler with a body, with a connection on
which the head write succeeds and the body write then fails, handleRequest
errs mid-response (after the nonempty head went out) and the worker still
writes the 500 head onto the same connection, right after the partial
response. -/
theorem C9_counterexample :
    (handleRequest epsC9 [] connC9).1 = .err "write response body"
    ∧ (handleRequest epsC9 [] connC9).2.1.written = headBytes okResponse.head
    ∧ headBytes okResponse.head ≠ []
    ∧ (handleConn epsC9 [] connC9).2.1.written
        = headBytes okResponse.head ++ headBytes errorResponse.head := by decide

/-- C9 as amended: whenever handleRequest returns an error - even when bytes
of the response have already been written to the connection - the worker
unconditionally attempts the 500 write; there is no nothing-written-yet
check. -/
theorem C9_amended (eps : List (EpHandler HandlerM)) (mws : List (HandlerM → HandlerM))
    (conn : Conn) (m : String) (st : ConnState) (w : World)
    (h : handleRequest eps mws conn = (.err m, st, w)) (hw : st.written ≠ []) :
    handleConn eps mws conn
      = (.err m, (connWrite conn st (headBytes errorResponse.head)).2, w) := by
  unfold handleConn
  rw [h]

/-- Witness for C9 as amended, at the concrete mid-response write failure of
the C9 scenario. -/
theorem C9_amended_witness :
    (handleRequest epsC9 [] connC9
        = (.err "write response body", ⟨headBytes okResponse.head, 2⟩, ⟨false, false, [], true⟩))
    ∧ handleConn epsC9 [] connC9
        = (.err "write response body",
            (connWrite connC9 ⟨headBytes okResponse.head, 2⟩ (headBytes errorResponse.head)).2,
            ⟨false, false, [], true⟩) :=
  ⟨by decide, C9_amended epsC9 [] connC9 "write response body"
    ⟨headBytes okResponse.head, 2⟩ ⟨false, false, [], true⟩ (by decide) (by decide)⟩
